import Mathlib

/-!
Verification of the IFRS 9 impairment engine (`impairment/` package) against its
natural-language specification.  The Lean definitions below are shallow embeddings
of the Python source: machine floats are modelled as exact rationals (ℚ) except
where a genuinely irrational operation occurs (the fractional-power discount
factors, modelled over ℝ), Python `round` is modelled as round-half-to-even,
and Python exceptions are modelled with `Except`.
-/

namespace IFRS9

/-! ## Numeric primitives shared by the modules -/

/-- Python's `round(x)` / `round(x, 0)` on a value modelled as an exact rational:
round half to even (banker's rounding). -/
def roundHalfEven (q : ℚ) : ℤ :=
  let n : ℤ := ⌊q⌋
  let f : ℚ := q - n
  if f < 1/2 then n
  else if 1/2 < f then n + 1
  else if Even n then n else n + 1

/-- Python's `round(x, 2)` (two decimal places, half to even). -/
def round2 (q : ℚ) : ℚ := (roundHalfEven (q * 100) : ℚ) / 100

/-- `numpy_financial.pmt(rate, nper, pv)` with the defaults `fv=0, when='end'`:
the level annuity payment.  For `rate = 0` the numpy source uses `-(fv+pv)/nper`,
otherwise `-(fv + pv*(1+rate)^nper) / ((1+rate)^nper - 1) * rate` arranged as below. -/
def pmtQ (rate : ℚ) (nper : ℕ) (pv : ℚ) : ℚ :=
  if rate = 0 then -(pv / nper)
  else -(pv * (1 + rate) ^ nper * rate) / ((1 + rate) ^ nper - 1)

/-- pandas `Series.clip(lo, hi)` applied to a scalar entry. -/
def clipQ (lo hi x : ℚ) : ℚ := min hi (max lo x)

/-! ## `data_validation.py`: observation-period auto-detection

`data_prep` takes the sorted unique observation dates, computes the mean of the
day gaps between successive dates, divides by 30.44 to obtain an average gap in
months, and snaps it to the nearest of {1, 3, 6, 12} with `closest_period`.
Dates are modelled as integer day numbers. -/

/-- `closest_period(avg_months)`: `min([1,3,6,12], key=lambda x: abs(x - avg_months))`.
Python's `min` with a key keeps the earliest element among ties, which the fold
below reproduces (a later element replaces the current best only when strictly
smaller). -/
def closest_period (avgMonths : ℚ) : ℕ :=
  ([3, 6, 12] : List ℕ).foldl
    (fun (best x : ℕ) =>
      if |(x : ℚ) - avgMonths| < |(best : ℚ) - avgMonths| then x else best) 1

/-- The day gaps `unique_dates.diff().dropna().dt.days` between successive sorted
unique observation dates. -/
def dateDiffs (dates : List ℤ) : List ℤ :=
  List.zipWith (fun b a => b - a) dates.tail dates

/-- `avg_months = date_diffs.mean() / 30.44` (30.44 = approximate days per month). -/
def avgMonths (dates : List ℤ) : ℚ :=
  (((dateDiffs dates).sum : ℚ) / ((dateDiffs dates).length : ℚ)) / (3044/100)

/-- The observation period auto-detected by `data_prep` from the sorted unique
observation dates (day numbers). -/
def detectPeriod (dates : List ℤ) : ℕ := closest_period (avgMonths dates)

/-- Modelled from the spec: "the mode of the inter-observation date gaps" —
the most frequent day gap (earliest-seen gap wins ties).  This definition follows
the claim's words, for comparison with `detectPeriod`, which embeds the source. -/
def modeGap (gaps : List ℤ) : ℤ :=
  match gaps with
  | [] => 0
  | g :: gs => gs.foldl (fun best x => if gaps.count best < gaps.count x then x else best) g

/-! ## `matrix_functions.py` -/

/-- The post-processing step of `convert_to_monthly_transition_matrix`
(lines 64-66): clamp negative entries to 0, then divide each row by its sum
(`monthly_matrix[monthly_matrix < 0] = 0` followed by row normalization). -/
def postprocessMonthly (A : List (List ℚ)) : List (List ℚ) :=
  A.map (fun row =>
    let r := row.map (fun x => if x < 0 then 0 else x)
    let s := r.sum
    r.map (fun x => x / s))

/-- `convert_to_monthly_transition_matrix(matrix, period)`.  For `period == 1` the
input is returned unchanged.  Otherwise the source computes
`expm(logm(matrix)/period)` with scipy in floating point; that irrational
intermediate is supplied here as the argument `A` (quantified over in the
theorems, standing for whatever the numerics produce), after which the source's
clamp-and-renormalize post-processing is applied. -/
def convert_to_monthly_transition_matrix (M : List (List ℚ)) (period : ℕ)
    (A : List (List ℚ)) : List (List ℚ) :=
  if period = 1 then M else postprocessMonthly A

/-- A row of a stochastic matrix: entries nonnegative, summing to 1. -/
def rowStochastic (row : List ℚ) : Prop := (∀ x ∈ row, 0 ≤ x) ∧ row.sum = 1

/-- A valid stochastic matrix. -/
def isStochastic (M : List (List ℚ)) : Prop := ∀ row ∈ M, rowStochastic row

instance (row : List ℚ) : Decidable (rowStochastic row) := by
  unfold rowStochastic; infer_instance

instance (M : List (List ℚ)) : Decidable (isStochastic M) := by
  unfold isStochastic; infer_instance

/-! ### `absorbing_state`

A matrices collection (`matrices_df`, a MultiIndex DataFrame) is modelled as an
association list from loan segment to an association list from current stage to
matrix row.  `absorbing_state` first calls `matrices_df.copy()`, then forces each
segment's `stage_3` row to `(0,0,1)` (size 3) or `(0,0,0,1)` (size 4) on the
copy, then converts each segment matrix to monthly.  Because of the copy, the
caller's DataFrame is left untouched; the state-passing embedding returns the
caller's collection alongside the result. -/

abbrev StageTable := List (String × List ℚ)
abbrev MatricesDf := List (String × StageTable)

/-- The absorbing row written by `absorbing_state`: `(0, 0, 1)` for size 3,
`(0, 0, 0, 1)` for size 4 — zeros followed by 1.0 on the last (default) column. -/
def unitLastRow (size : ℕ) : List ℚ := List.replicate (size - 1) 0 ++ [1]

/-- `matrices_df.loc[(segment, 'stage_3'), :] = (0,...,1)`: replace the
`stage_3` row if present, or append it (pandas `.loc` enlargement) if absent. -/
def setStage3Row (size : ℕ) (t : StageTable) : StageTable :=
  if t.any (fun p => p.1 = "stage_3") then
    t.map (fun p => if p.1 = "stage_3" then ("stage_3", unitLastRow size) else p)
  else t ++ [("stage_3", unitLastRow size)]

/-- The absorbing-state enforcement loop of `absorbing_state` (lines 86-92),
applied to the copied collection before any monthly conversion. -/
def forceAbsorbing (size : ℕ) (df : MatricesDf) : MatricesDf :=
  df.map (fun p => (p.1, setStage3Row size p.2))

/-- `absorbing_state(matrices_df, matrix_size, period)`.  Raises for a matrix
size other than 3 or 4.  `numerics` supplies, per segment, the floating-point
`expm(logm(·)/period)` intermediate consumed by
`convert_to_monthly_transition_matrix` (irrelevant when `period = 1`).  The
result pairs the returned monthly collection with the caller's input collection
as it stands after the call (unchanged, since the source mutates only its copy). -/
def absorbing_state (df : MatricesDf) (size : ℕ) (period : ℕ)
    (numerics : String → List (List ℚ)) :
    Except String (MatricesDf × MatricesDf) :=
  if size = 3 ∨ size = 4 then
    let working := forceAbsorbing size df
    let monthly := working.map (fun p =>
      let rows := p.2.map (·.2)
      let conv := convert_to_monthly_transition_matrix rows period (numerics p.1)
      (p.1, (p.2.map (·.1)).zip conv))
    .ok (monthly, df)
  else .error "Invalid matrix size. Should be 3 or 4 only."

/-! ### `extract_pds`

For each loan segment and each non-default origin stage, the source computes
`cumulative_pds = [matrix_power(M, i)[stage, size-1] for i in range(1, N+1)]`
and `marginal_pds = np.diff(np.insert(cumulative_pds, 0, 0))`. -/

/-- The cumulative PD curve: `cumulative[i] = (M^(i+1))[origin, dflt]` for
`i = 0..N-1` (month offsets 1..N). -/
def cumulative_pds {n : ℕ} (M : Matrix (Fin n) (Fin n) ℚ) (origin dflt : Fin n)
    (N : ℕ) : List ℚ :=
  (List.range N).map (fun i => (M ^ (i + 1)) origin dflt)

/-- The marginal PD curve: `np.diff(np.insert(cumulative, 0, 0))`, i.e. adjacent
differences of the cumulative curve with a 0 prepended. -/
def marginal_pds {n : ℕ} (M : Matrix (Fin n) (Fin n) ℚ) (origin dflt : Fin n)
    (N : ℕ) : List ℚ :=
  List.zipWith (fun b a => b - a) (cumulative_pds M origin dflt N)
    (0 :: cumulative_pds M origin dflt N)

/-! ## `ecl_module.py` — `ExposureAtDefault` -/

/-- `self.payment_frequency = max(12, int(payment_frequency))` (`__init__`, line 65). -/
def storedPaymentFrequency (pf : ℤ) : ℤ := max 12 pf

/-- The payment-frequency handling of `ExposureAtDefault.__init__`: the stored
frequency is `max(12, pf)`, and the constructor then raises `ValueError` when
the stored frequency is not in `set(range(0, 13))` (lines 65 and 81-82). -/
def eadInitFrequency (pf : ℤ) : Except String ℤ :=
  let stored := storedPaymentFrequency pf
  if 0 ≤ stored ∧ stored ≤ 12 then .ok stored
  else .error "Payment Frequency must be integer value between 1 and 12"

/-- `self.periodic_rate = self.interest_rate / self.payment_frequency` (line 68). -/
def periodicRate (interestRate : ℚ) (pf : ℤ) : ℚ := interestRate / pf

/-- `int(12 / self.payment_frequency)`: the month spacing between payment months
used by the `counter % int(12/pf)` tests inside `amortization`. -/
def payEvery (pf : ℕ) : ℕ := 12 / pf

/-- `counter % int(12/pf)` is zero, i.e. the month with index `counter` is a
payment month. -/
def isPaymentMonth (counter pf : ℕ) : Bool := counter % payEvery pf == 0

/-- `self.pthly_payment = abs(round(npf.pmt(rate=periodic_rate,
nper=total_num_payments, pv=disbursed_amount), 2))` (line 74): the originally
contracted installment, from the disbursed amount and the total contractual term. -/
def pthly_payment (r : ℚ) (totalNumPayments : ℕ) (disbursedAmount : ℚ) : ℚ :=
  |round2 (pmtQ r totalNumPayments disbursedAmount)|

/-- The per-stage cap `max_counts` on loop iterations in `amortization`
(lines 139-145): `min(12, num_payments)` for stage_1, `num_payments` for
stage_2, 1 otherwise. -/
def stageCap (stage : String) (numPayments : ℕ) : ℕ :=
  if stage = "stage_1" then min 12 numPayments
  else if stage = "stage_2" then numPayments
  else 1

/-- One projected row of the amortization schedule. -/
structure AmortRow where
  pay : ℚ
  interest : ℚ
  principal : ℚ
  amount : ℚ
deriving Repr, DecidableEq

/-- The `while (round(amount, 0) > 0) and (counter <= max_counts)` loop of
`amortization` (lines 147-166).  `fuel` is the number of remaining permitted
iterations (`max_counts - counter + 1`); `payment` is the mutable local whose
overpayment cap (`payment = round(amount*(1+rate),2) + 0.001`) persists across
iterations. -/
def amortRows (r : ℚ) (pf : ℕ) : ℕ → ℕ → ℚ → ℚ → List AmortRow
  | 0, _, _, _ => []
  | fuel + 1, counter, payment, amount =>
    if 0 < roundHalfEven amount then
      let payment' := if amount < payment then round2 (amount * (1 + r)) + 1/1000
                      else payment
      let payMonth := isPaymentMonth counter pf
      let pay := if payMonth then payment' else 0
      let interest := round2 (amount * r)
      let principal := if payMonth then round2 (payment' - interest) else 0
      let amount' := if payMonth then round2 (amount * (1 + r) - payment')
                     else round2 (amount * (1 + r))
      ⟨pay, interest, principal, amount'⟩ ::
        amortRows r pf fuel (counter + 1) payment' amount'
    else []

/-- The columns of the amortization schedule DataFrame returned by the
`amortization` property (each source list is built with an initial
valuation-date entry and the final appended entry dropped by `[:-1]`). -/
structure AmortSchedule where
  eadCol : List ℚ
  payCol : List ℚ
  interestCol : List ℚ
  principalCol : List ℚ
deriving Repr, DecidableEq

/-- The `amortization` property of `ExposureAtDefault` (lines 120-177):
`loan_amount = self.outstanding_balance`, the level payment is
`abs(round(npf.pmt(rate=periodic_rate, nper=num_payments, pv=loan_amount), 2))`,
the loop runs from `counter = 1` up to the stage cap, and the output columns
drop the final appended element. -/
def amortization (r : ℚ) (pf : ℕ) (numPayments : ℕ) (stage : String)
    (outstandingBalance : ℚ) : AmortSchedule :=
  let payment0 := |round2 (pmtQ r numPayments outstandingBalance)|
  let rows := amortRows r pf (stageCap stage numPayments) 1 payment0 outstandingBalance
  { eadCol := (outstandingBalance :: rows.map (·.amount)).dropLast
    payCol := ((0 : ℚ) :: rows.map (·.pay)).dropLast
    interestCol := ((0 : ℚ) :: rows.map (·.interest)).dropLast
    principalCol := ((0 : ℚ) :: rows.map (·.principal)).dropLast }

/-! ## `ecl_module.py` — `LossGivenDefault.lgd_schedule`

For a non-stage_3 loan `self.ead` is a Series, so the `try` branch applies:
`lgd = ((ead - total_dcv) / (ead + epsilon)) * (1 - cure_rate[:len(ead)])`
optionally `* (1 - recovery_rate[:len(ead)])`, then `lgd = lgd.clip(0, 1)`
(lines 239-245).  The epsilon constant is `1e-5`. -/

/-- The per-period LGD column computed by `lgd_schedule` (Series branch, taken
for every non-stage_3 loan), as a function of the EAD column, the total
discounted collateral value, the cure-rate curve and the optional recovery-rate
curve. -/
def lgd_schedule (ead : List ℚ) (totalDcv : ℚ) (cure : List ℚ)
    (recovery : Option (List ℚ)) : List ℚ :=
  let epsilon : ℚ := 1/100000
  let base := ead.map (fun e => (e - totalDcv) / (e + epsilon))
  let withCure := List.zipWith (fun b c => b * (1 - c)) base (cure.take ead.length)
  let withRec := match recovery with
    | none => withCure
    | some rr => List.zipWith (fun b v => b * (1 - v)) withCure (rr.take ead.length)
  withRec.map (fun x => clipQ 0 1 x)

/-! ## `ecl_module.py` — `calculate_single_loan_ecl` and `ECL_Calc`

The discount factor `(1 + eir) ** (-n/12)` is a genuine fractional power, so this
layer is modelled over ℝ.  A DataFrame cell is either numeric or non-numeric
text (`pd.to_numeric` maps numeric strings to floats upstream, so numeric
strings are modelled directly as numbers); the marginal-PD DataFrames are
modelled as association lists from loan-type column name to column.  Python
exceptions that escape the function (`KeyError` from a missing loan-type column,
`ValueError` from `pd.to_numeric` on non-numeric text) are modelled with
`Except.error`; the `try/except` around the product line returns `None`
(modelled `Except.ok none`) — with numeric operands that product cannot raise,
so the embedded function only ever produces `Except.ok (some _)` or
`Except.error _`. -/

/-- A DataFrame cell: numeric, or text that `pd.to_numeric` cannot parse. -/
inductive Cell where
  | num (x : ℝ)
  | txt (s : String)

/-- `pd.to_numeric(column)` with the default `errors='raise'`. -/
def toNumeric : List Cell → Except String (List ℝ)
  | [] => .ok []
  | Cell.num x :: rest => (toNumeric rest).map (fun l => x :: l)
  | Cell.txt s :: _ => .error ("Unable to parse string " ++ s)

/-- A marginal-PD DataFrame: loan-type column name → marginal PD column. -/
abbrev PdDf := List (String × List ℝ)

/-- `df.shape[0]`: the number of rows (the common length of the columns). -/
def dfRows (df : PdDf) : ℕ :=
  match df with
  | [] => 0
  | c :: _ => c.2.length

/-- The stage-conditional PD selection of `calculate_single_loan_ecl`
(lines 341-346): `stage1_pds[loan_type][:num]` for stage_1 (KeyError when the
column is absent), `stage2_pds[loan_type][:num]` for stage_2, and
`pd.Series([1] * num)` otherwise. -/
def selectPd (stage loanType : String) (stage1Pds stage2Pds : PdDf) (num : ℕ) :
    Except String (List ℝ) :=
  if stage = "stage_1" then
    match List.lookup loanType stage1Pds with
    | some col => .ok (col.take num)
    | none => .error ("KeyError: " ++ loanType)
  else if stage = "stage_2" then
    match List.lookup loanType stage2Pds with
    | some col => .ok (col.take num)
    | none => .error ("KeyError: " ++ loanType)
  else .ok (List.replicate num 1)

/-- One row of the per-loan ECL DataFrame. -/
structure EclRow where
  account : String
  stage : String
  loanType : String
  ecl : ℝ
  ead : ℝ
  pd : ℝ
  lgd : ℝ

instance : Inhabited EclRow := ⟨⟨"", "", "", 0, 0, 0, 0⟩⟩

/-- Four-way `zipWith`, truncating at the shortest list. -/
def zipWith4 {α β γ δ ε : Type} (f : α → β → γ → δ → ε) :
    List α → List β → List γ → List δ → List ε
  | a :: as, b :: bs, c :: cs, d :: ds => f a b c d :: zipWith4 f as bs cs ds
  | _, _, _, _ => []

/-- `discount_factor = (1 + eir) ** (-n / 12)` for month offset `n` (line 352). -/
noncomputable def discountFactor (eir : ℝ) (n : ℕ) : ℝ :=
  (1 + eir) ^ (-(n : ℝ) / 12)

/-- `calculate_single_loan_ecl` (lines 299-371).  `eadCells` is the
`"EAD (Out Bal.)"` column of the amortization schedule and `lgdCells` the
`"LGD"` column of the LGD schedule; both pass through `pd.to_numeric` (which can
raise, uncaught).  `num = min(len(ead), stage2_pds.shape[0], len(lgd))` — note
the row count of the *stage-2* DataFrame is used for every stage.  The per-loan
DataFrame holds, per period, `ecl = PD * ead * lgd * discount_factor` together
with the EAD, PD and LGD operands. -/
noncomputable def calculate_single_loan_ecl (account stage loanType : String)
    (eir : ℝ) (eadCells lgdCells : List Cell) (stage1Pds stage2Pds : PdDf) :
    Except String (Option (List EclRow)) :=
  match toNumeric eadCells with
  | .error e => .error e
  | .ok ead =>
    match toNumeric lgdCells with
    | .error e => .error e
    | .ok lgd =>
      let num := min (min ead.length (dfRows stage2Pds)) lgd.length
      match selectPd stage loanType stage1Pds stage2Pds num with
      | .error e => .error e
      | .ok PD =>
        let eadT := ead.take num
        let lgdT := lgd.take num
        let disc := (List.range num).map (fun i => discountFactor eir (i + 1))
        .ok (some (zipWith4
          (fun p e l d => { account := account, stage := stage,
                            loanType := loanType, ecl := p * e * l * d,
                            ead := e, pd := p, lgd := l : EclRow })
          PD eadT lgdT disc))

/-- One loan's slot in the parameter lists handed to `ECL_Calc`. -/
structure LoanInput where
  account : String
  stage : String
  loanType : String
  eir : ℝ
  eadCells : List Cell
  lgdCells : List Cell

/-- `zip(account_no_list, stage_list, loan_type_list, eir_list, ead_list,
lgd_list)` — Python `zip` truncates at the shortest list. -/
def zipLoans : List String → List String → List String → List ℝ →
    List (List Cell) → List (List Cell) → List LoanInput
  | a :: as, s :: ss, t :: ts, e :: es, d :: ds, l :: ls =>
    ⟨a, s, t, e, d, l⟩ :: zipLoans as ss ts es ds ls
  | _, _, _, _, _, _ => []

/-- `calculate_single_loan_ecl` applied to one zipped parameter tuple. -/
noncomputable def calcLoan (stage1Pds stage2Pds : PdDf) (p : LoanInput) :
    Except String (Option (List EclRow)) :=
  calculate_single_loan_ecl p.account p.stage p.loanType p.eir p.eadCells
    p.lgdCells stage1Pds stage2Pds

/-- `list(map(lambda params: calculate_single_loan_ecl(*params, ...), parameters))`:
the calls run left to right and the first uncaught exception aborts the batch. -/
noncomputable def runLoans (stage1Pds stage2Pds : PdDf) :
    List LoanInput → Except String (List (Option (List EclRow)))
  | [] => .ok []
  | p :: rest =>
    match calcLoan stage1Pds stage2Pds p with
    | .error e => .error e
    | .ok r =>
      match runLoans stage1Pds stage2Pds rest with
      | .error e => .error e
      | .ok rs => .ok (r :: rs)

/-- Python `round(x, d)` on a float value modelled over ℝ (half to even). -/
noncomputable def roundR (d : ℕ) (x : ℝ) : ℝ :=
  let y := x * (10 : ℝ) ^ d
  let n : ℤ := ⌊y⌋
  (if y - n < 1/2 then (n : ℝ)
   else if (1:ℝ)/2 < y - n then (n : ℝ) + 1
   else if Even n then (n : ℝ) else (n : ℝ) + 1) / (10 : ℝ) ^ d

/-- The column rounding applied by `ECL_Calc` after concatenation: ECL and EAD
to 2 decimals, PD and LGD to 8 (lines 390-393). -/
noncomputable def roundEclRow (row : EclRow) : EclRow :=
  { row with ecl := roundR 2 row.ecl, ead := roundR 2 row.ead,
             pd := roundR 8 row.pd, lgd := roundR 8 row.lgd }

/-- `ECL_Calc` (lines 373-394): zip the per-loan parameter lists, map
`calculate_single_loan_ecl` over them (first uncaught exception aborts),
`pd.concat` the per-loan DataFrames (silently dropping `None` results, but
raising `ValueError` when there is no object to concatenate), and round the
numeric columns. -/
noncomputable def ECL_Calc (accounts stages loanTypes : List String)
    (eirs : List ℝ) (eads lgds : List (List Cell)) (stage1Pds stage2Pds : PdDf) :
    Except String (List EclRow) :=
  let params := zipLoans accounts stages loanTypes eirs eads lgds
  match runLoans stage1Pds stage2Pds params with
  | .error e => .error e
  | .ok results =>
    let dfs := results.filterMap id
    if dfs.isEmpty then .error "ValueError: No objects to concatenate"
    else .ok ((dfs.flatten).map roundEclRow)

/-- Modelled from the spec: the number of ECL periods asserted by the claim,
`num = min(len(ead), len(pd_curve), len(lgd))` with `pd_curve` the curve of the
loan's own stage.  This definition follows the claim's words, for comparison
with `calculate_single_loan_ecl`, which embeds the source. -/
def claimNum (eadLen pdCurveLen lgdLen : ℕ) : ℕ := min eadLen (min pdCurveLen lgdLen)

/-- A Python call that returns normally (no exception escapes). -/
def succeeds {α : Type} (e : Except String α) : Prop := ∃ a, e = Except.ok a

/-! ## Theorems -/

/-- Claim C10: any input payment frequency at most 12 is stored as 12 (making
the periodic rate `annual_rate/12` and every projected month a payment month),
any input greater than 12 raises `ValueError`, and these are the only outcomes. -/
theorem ead_init_frequency_forced_monthly (pf : ℤ) (rate : ℚ) :
    (pf ≤ 12 → eadInitFrequency pf = Except.ok 12) ∧
    (12 < pf → eadInitFrequency pf =
      Except.error "Payment Frequency must be integer value between 1 and 12") ∧
    (∀ s, eadInitFrequency pf = Except.ok s → s = 12) ∧
    periodicRate rate 12 = rate / 12 ∧
    (∀ counter : ℕ, isPaymentMonth counter 12 = true) := by
  refine ⟨?_, ?_, ?_, ?_, ?_⟩
  · intro h
    have hs : storedPaymentFrequency pf = 12 := by
      simp [storedPaymentFrequency, max_eq_left h]
    simp [eadInitFrequency, hs]
  · intro h
    have hs : storedPaymentFrequency pf = pf := by
      simp [storedPaymentFrequency, max_eq_right (le_of_lt h)]
    simp [eadInitFrequency, hs]
    omega
  · intro s hsome
    rcases le_or_lt pf 12 with h | h
    · have hs : storedPaymentFrequency pf = 12 := by
        simp [storedPaymentFrequency, max_eq_left h]
      simp [eadInitFrequency, hs] at hsome
      omega
    · have hs : storedPaymentFrequency pf = pf := by
        simp [storedPaymentFrequency, max_eq_right (le_of_lt h)]
      simp only [eadInitFrequency, hs] at hsome
      rw [if_neg (by omega)] at hsome
      exact Except.noConfusion hsome
  · simp [periodicRate]
  · intro counter
    simp [isPaymentMonth, payEvery, Nat.mod_one]

/-- Witness for C10: a quarterly input frequency (4) is stored as 12, and an
input of 13 raises. -/
theorem ead_init_frequency_forced_monthly_witness :
    eadInitFrequency 4 = Except.ok 12 ∧
    eadInitFrequency 13 =
      Except.error "Payment Frequency must be integer value between 1 and 12" :=
  ⟨(ead_init_frequency_forced_monthly 4 0).1 (by decide),
   (ead_init_frequency_forced_monthly 13 0).2.1 (by decide)⟩

/-- Replacing the `stage_3` entry rewrites what `lookup` finds, provided the
table has one. -/
theorem lookup_map_stage3 (size : ℕ) :
    ∀ t : StageTable, t.any (fun p => p.1 = "stage_3") = true →
      List.lookup "stage_3"
        (t.map (fun p => if p.1 = "stage_3" then ("stage_3", unitLastRow size) else p)) =
        some (unitLastRow size) := by
  intro t
  induction t with
  | nil => intro h; simp at h
  | cons p rest ih =>
    obtain ⟨pk, pv⟩ := p
    intro h
    by_cases hp : pk = "stage_3"
    · rw [List.map_cons]
      simp only [if_pos hp]
      simp [List.lookup]
    · have hr : rest.any (fun q => q.1 = "stage_3") = true := by
        simp only [List.any_cons] at h
        simpa [hp] using h
      rw [List.map_cons]
      simp only [if_neg hp]
      have hne : ("stage_3" == pk) = false :=
        beq_eq_false_iff_ne.mpr (fun hh => hp hh.symm)
      simp [List.lookup, hne]
      exact ih hr

/-- Appending the `stage_3` entry (pandas `.loc` enlargement) makes `lookup`
find it, provided the table had none. -/
theorem lookup_append_stage3 (size : ℕ) :
    ∀ t : StageTable, (∀ p ∈ t, p.1 ≠ "stage_3") →
      List.lookup "stage_3" (t ++ [("stage_3", unitLastRow size)]) =
        some (unitLastRow size) := by
  intro t
  induction t with
  | nil => intro _; simp [List.lookup]
  | cons p rest ih =>
    obtain ⟨pk, pv⟩ := p
    intro h
    have hp : pk ≠ "stage_3" := h ⟨pk, pv⟩ (List.mem_cons_self _ _)
    have hne : ("stage_3" == pk) = false :=
      beq_eq_false_iff_ne.mpr (fun hh => hp hh.symm)
    rw [List.cons_append]
    simp [List.lookup, hne]
    exact ih (fun q hq => h q (List.mem_cons_of_mem _ hq))

/-- Looking up `stage_3` after the `.loc` write always finds the absorbing row,
whether the row was replaced or appended by enlargement. -/
theorem lookup_setStage3Row (size : ℕ) (t : StageTable) :
    List.lookup "stage_3" (setStage3Row size t) = some (unitLastRow size) := by
  unfold setStage3Row
  by_cases h : t.any (fun p => p.1 = "stage_3") = true
  · rw [if_pos h]
    exact lookup_map_stage3 size t h
  · rw [if_neg h]
    refine lookup_append_stage3 size t ?_
    intro p hp hcontra
    exact h (List.any_eq_true.mpr ⟨p, hp, by simp [hcontra]⟩)

/-- Claim C9: `absorbing_state` forces every segment's `stage_3` row to the
unit vector with 1.0 on the last (default) column before the monthly
conversion, builds a new collection, and returns the caller's input collection
unchanged. -/
theorem absorbing_state_forces_default_row (df : MatricesDf) (size period : ℕ)
    (numerics : String → List (List ℚ)) (hsize : size = 3 ∨ size = 4) :
    (∃ result, absorbing_state df size period numerics = Except.ok (result, df)) ∧
    (∀ p ∈ forceAbsorbing size df,
      List.lookup "stage_3" p.2 = some (unitLastRow size)) ∧
    (unitLastRow size).length = size ∧
    (unitLastRow size).getLastD 0 = 1 ∧
    (∀ i, i + 1 < size → (unitLastRow size).getD i 0 = 0) := by
  refine ⟨?_, ?_, ?_, ?_, ?_⟩
  · unfold absorbing_state
    rw [if_pos hsize]
    exact ⟨_, rfl⟩
  · intro p hp
    unfold forceAbsorbing at hp
    rcases List.mem_map.mp hp with ⟨q, _, rfl⟩
    exact lookup_setStage3Row size q.2
  · rcases hsize with rfl | rfl <;> decide
  · rcases hsize with rfl | rfl <;> decide
  · rcases hsize with rfl | rfl <;> intro i hi
    · have hle : i ≤ 1 := by omega
      interval_cases i <;> decide
    · have hle : i ≤ 2 := by omega
      interval_cases i <;> decide

/-- Witness for C9: a one-segment collection with a 3×3 matrix. -/
theorem absorbing_state_forces_default_row_witness :
    (∃ result, absorbing_state
        [("PL", [("stage_1", [9/10, 1/10, 0]), ("stage_2", [1/10, 8/10, 1/10]),
                 ("stage_3", [1/10, 2/10, 7/10])])] 3 1 (fun _ => []) =
      Except.ok (result,
        [("PL", [("stage_1", [9/10, 1/10, 0]), ("stage_2", [1/10, 8/10, 1/10]),
                 ("stage_3", [1/10, 2/10, 7/10])])])) ∧
    (∀ p ∈ forceAbsorbing 3
        [("PL", [("stage_1", [9/10, 1/10, 0]), ("stage_2", [1/10, 8/10, 1/10]),
                 ("stage_3", [1/10, 2/10, 7/10])])],
      List.lookup "stage_3" p.2 = some (unitLastRow 3)) ∧
    (unitLastRow 3).length = 3 ∧
    (unitLastRow 3).getLastD 0 = 1 ∧
    (∀ i, i + 1 < 3 → (unitLastRow 3).getD i 0 = 0) :=
  absorbing_state_forces_default_row _ 3 1 _ (Or.inl rfl)

/-- Dividing every element and then summing is dividing the sum. -/
theorem sum_map_div_eq (l : List ℚ) (s : ℚ) :
    (l.map (fun x => x / s)).sum = l.sum / s := by
  induction l with
  | nil => simp
  | cons a t ih => simp [ih, add_div]

/-- Claim C6 (corrected): the clamp-and-renormalize post-processing of
`convert_to_monthly_transition_matrix` yields a valid stochastic matrix — rows
sum to exactly 1 and entries are nonnegative — for any stochastic input `M`,
any period, and any exp/log numerical intermediate `A` in which every row keeps
a positive total after the negative entries are clamped to 0 (for `period = 1`
the input `M` is returned unchanged). -/
theorem convert_to_monthly_stochastic (M : List (List ℚ)) (period : ℕ)
    (A : List (List ℚ)) (hM : isStochastic M)
    (hA : ∀ row ∈ A, 0 < (row.map (fun x => if x < 0 then 0 else x)).sum) :
    isStochastic (convert_to_monthly_transition_matrix M period A) := by
  unfold convert_to_monthly_transition_matrix
  by_cases hp : period = 1
  · rw [if_pos hp]; exact hM
  · rw [if_neg hp]
    intro row hrow
    unfold postprocessMonthly at hrow
    rcases List.mem_map.mp hrow with ⟨orig, horig, rfl⟩
    have hpos := hA orig horig
    set r := orig.map (fun x => if x < 0 then 0 else x) with hr
    constructor
    · intro x hx
      rcases List.mem_map.mp hx with ⟨y, hy, rfl⟩
      have hy0 : 0 ≤ y := by
        rcases List.mem_map.mp hy with ⟨z, _, rfl⟩
        by_cases hz : z < 0 <;> simp [hz]
        exact le_of_not_lt hz
      exact div_nonneg hy0 (le_of_lt hpos)
    · rw [sum_map_div_eq]
      exact div_self (ne_of_gt hpos)

/-- Counterexample for C6: the post-processing cannot rescue an exp/log
intermediate whose row clamps to all zeros — renormalizing divides by a zero
row total, and the resulting row sums to 0, not to 1 within 1e-6 — so the
unconditional claim fails (here at the valid stochastic input
`[[1/2,1/2],[1/2,1/2]]` with period 2). -/
theorem convert_to_monthly_claim_counterexample :
    isStochastic [[1/2, 1/2], [1/2, 1/2]] ∧
    convert_to_monthly_transition_matrix [[1/2, 1/2], [1/2, 1/2]] 2
        [[-1, -1], [-1, -1]] = [[0, 0], [0, 0]] ∧
    ¬ (∀ row ∈ convert_to_monthly_transition_matrix [[1/2, 1/2], [1/2, 1/2]] 2
          [[-1, -1], [-1, -1]], (∀ x ∈ row, 0 ≤ x) ∧ |row.sum - 1| ≤ 1/1000000) := by
  have hconv : convert_to_monthly_transition_matrix [[1/2, 1/2], [1/2, 1/2]] 2
      [[-1, -1], [-1, -1]] = [[(0 : ℚ), 0], [0, 0]] := by
    norm_num [convert_to_monthly_transition_matrix, postprocessMonthly]
  refine ⟨?_, hconv, ?_⟩
  · norm_num [isStochastic, rowStochastic]
  · rw [hconv]
    intro h
    have h2 := (h [0, 0] (by simp)).2
    norm_num at h2

/-- Witness for C6: a stochastic 2×2 matrix, period 2, and an intermediate with
positive clamped row totals. -/
theorem convert_to_monthly_stochastic_witness :
    isStochastic (convert_to_monthly_transition_matrix [[1/2, 1/2], [1/2, 1/2]] 2
      [[1, 1], [2, 0]]) :=
  convert_to_monthly_stochastic _ 2 _ (by norm_num [isStochastic, rowStochastic])
    (by norm_num)

/-- Adjacent differences of a list against itself shifted by one telescope:
their sum is the last element minus the seed. -/
theorem sum_zipWith_sub_shift (l : List ℚ) (x : ℚ) :
    (List.zipWith (fun b a => b - a) l (x :: l)).sum = l.getLastD x - x := by
  induction l generalizing x with
  | nil => simp
  | cons a t ih =>
    rw [List.zipWith_cons_cons, List.sum_cons, ih a, List.getLastD_cons]
    ring

/-- The last element of a map over `List.range`. -/
theorem getLastD_map_range (f : ℕ → ℚ) (N : ℕ) (hN : 1 ≤ N) (d : ℚ) :
    ((List.range N).map f).getLastD d = f (N - 1) := by
  obtain ⟨k, rfl⟩ : ∃ k, N = k + 1 := ⟨N - 1, by omega⟩
  rw [List.range_succ, List.map_append, List.map_singleton, List.getLastD_concat]
  simp

/-- Claim C7: the marginal PD curve of `extract_pds` consists of the adjacent
differences of the cumulative curve with `cumulative[0] = 0`, and therefore its
sum telescopes to the final cumulative value `(M^N)[origin, default]`. -/
theorem extract_pds_marginal_telescopes {n : ℕ} (M : Matrix (Fin n) (Fin n) ℚ)
    (origin dflt : Fin n) (N : ℕ) (hN : 1 ≤ N) :
    (∀ i, i < N → (marginal_pds M origin dflt N).getD i 0 =
      (cumulative_pds M origin dflt N).getD i 0 -
        (if i = 0 then 0 else (cumulative_pds M origin dflt N).getD (i - 1) 0)) ∧
    (marginal_pds M origin dflt N).sum = (M ^ N) origin dflt := by
  constructor
  · intro i hi
    have hlen : (cumulative_pds M origin dflt N).length = N := by
      simp [cumulative_pds]
    have hziplen : (marginal_pds M origin dflt N).length = N := by
      simp [marginal_pds, hlen]
    rw [List.getD_eq_getElem _ _ (by omega : i < (marginal_pds M origin dflt N).length)]
    unfold marginal_pds
    rw [List.getElem_zipWith]
    rcases Nat.eq_zero_or_pos i with rfl | hipos
    · have h0 : 0 < (cumulative_pds M origin dflt N).length := by omega
      rw [if_pos rfl, List.getElem_cons_zero, sub_zero,
        List.getD_eq_getElem _ _ h0, sub_zero]
    · have h1 : i - 1 < (cumulative_pds M origin dflt N).length := by omega
      have h2 : i < (cumulative_pds M origin dflt N).length := by omega
      rw [if_neg (by omega)]
      rw [List.getD_eq_getElem _ _ h2, List.getD_eq_getElem _ _ h1]
      congr 1
      obtain ⟨j, rfl⟩ : ∃ j, i = j + 1 := ⟨i - 1, by omega⟩
      simp
  · unfold marginal_pds
    rw [sum_zipWith_sub_shift]
    rw [cumulative_pds, getLastD_map_range _ _ hN]
    have : N - 1 + 1 = N := by omega
    rw [this, sub_zero]

/-- Witness for C7: a concrete 3×3 transition matrix over two months. -/
theorem extract_pds_marginal_telescopes_witness :
    (∀ i, i < 2 →
      (marginal_pds (Matrix.of ![![(1:ℚ)/2, 1/3, 1/6], ![0, 1/2, 1/2], ![0, 0, 1]])
          0 2 2).getD i 0 =
      (cumulative_pds (Matrix.of ![![(1:ℚ)/2, 1/3, 1/6], ![0, 1/2, 1/2], ![0, 0, 1]])
          0 2 2).getD i 0 -
        (if i = 0 then 0 else
          (cumulative_pds (Matrix.of ![![(1:ℚ)/2, 1/3, 1/6], ![0, 1/2, 1/2], ![0, 0, 1]])
            0 2 2).getD (i - 1) 0)) ∧
    (marginal_pds (Matrix.of ![![(1:ℚ)/2, 1/3, 1/6], ![0, 1/2, 1/2], ![0, 0, 1]])
        0 2 2).sum =
      ((Matrix.of ![![(1:ℚ)/2, 1/3, 1/6], ![0, 1/2, 1/2], ![0, 0, 1]]) ^ 2) 0 2 :=
  extract_pds_marginal_telescopes _ 0 2 2 (by decide)

/-- `closest_period` returns an element of {1, 3, 6, 12} minimising the absolute
distance to its argument (Python `min` with a key keeps the earliest minimiser). -/
theorem closest_period_minimises (q : ℚ) :
    closest_period q ∈ ([1, 3, 6, 12] : List ℕ) ∧
    ∀ y ∈ ([1, 3, 6, 12] : List ℕ),
      |(closest_period q : ℚ) - q| ≤ |(y : ℚ) - q| := by
  unfold closest_period
  simp only [List.foldl_cons, List.foldl_nil]
  split_ifs with h1 h2 h3 h3 h2 h3 h3 <;>
    refine ⟨by norm_num, ?_⟩ <;>
    intro y hy <;>
    push_cast at h1 h2 h3 ⊢ <;>
    fin_cases hy <;>
    push_cast <;>
    linarith

/-- Claim C5 (corrected): the observation period is auto-detected from the
*mean* of the inter-observation day gaps between successive sorted unique
dates, divided by 30.44 days per month, and snapped to the value of
{1, 3, 6, 12} nearest to that mean (earliest on ties) — not from the mode of
the gaps. -/
theorem detect_period_snaps_mean (dates : List ℤ) :
    detectPeriod dates = closest_period (avgMonths dates) ∧
    detectPeriod dates ∈ ([1, 3, 6, 12] : List ℕ) ∧
    ∀ y ∈ ([1, 3, 6, 12] : List ℕ),
      |(detectPeriod dates : ℚ) - avgMonths dates| ≤ |(y : ℚ) - avgMonths dates| :=
  ⟨rfl, (closest_period_minimises (avgMonths dates)).1,
    (closest_period_minimises (avgMonths dates)).2⟩

/-- Counterexample for C5: monthly observations with one long gap.  The gaps in
days are [30, 30, 184]; their mode is 30 days (≈ 1 month, snapping to period 1),
but the code snaps the mean (≈ 2.67 months) and returns period 3. -/
theorem detect_period_mode_counterexample :
    dateDiffs [0, 30, 60, 244] = [30, 30, 184] ∧
    detectPeriod [0, 30, 60, 244] = 3 ∧
    modeGap (dateDiffs [0, 30, 60, 244]) = 30 ∧
    closest_period ((30 : ℚ) / (3044/100)) = 1 ∧
    (3 : ℕ) ≠ 1 := by
  refine ⟨by norm_num [dateDiffs], ?_, by norm_num [modeGap, dateDiffs], ?_, by decide⟩
  · norm_num [detectPeriod, avgMonths, dateDiffs, closest_period, abs_of_nonneg]
  · norm_num [closest_period, abs_of_nonneg]

/-- Witness for C5: the detected period at the counterexample dates is no
farther from the mean gap than the candidate 6. -/
theorem detect_period_snaps_mean_witness :
    |(detectPeriod [0, 30, 60, 244] : ℚ) - avgMonths [0, 30, 60, 244]| ≤
      |((6 : ℕ) : ℚ) - avgMonths [0, 30, 60, 244]| :=
  (detect_period_snaps_mean [0, 30, 60, 244]).2.2 6 (by norm_num)

/-- The projection loop runs at most `fuel` (`max_counts - counter + 1`) times. -/
theorem amortRows_length_le (r : ℚ) (pf : ℕ) :
    ∀ fuel counter payment amount,
      (amortRows r pf fuel counter payment amount).length ≤ fuel := by
  intro fuel
  induction fuel with
  | zero => intro c p a; simp [amortRows]
  | succ f ih =>
    intro c p a
    rw [amortRows]
    by_cases hguard : 0 < roundHalfEven a
    · rw [if_pos hguard]
      simp only [List.length_cons]
      exact Nat.succ_le_succ (ih _ _ _)
    · rw [if_neg hguard]
      simp

/-- Every balance the loop continues from (the initial balance and each balance
kept in the output) rounds strictly above zero. -/
theorem amortRows_balances_pos (r : ℚ) (pf : ℕ) :
    ∀ fuel counter payment amount i,
      i < (amortRows r pf fuel counter payment amount).length →
      0 < roundHalfEven
        ((amount :: (amortRows r pf fuel counter payment amount).map (·.amount)).getD i 0) := by
  intro fuel
  induction fuel with
  | zero => intro c p a i hi; simp [amortRows] at hi
  | succ f ih =>
    intro c p a i hi
    rw [amortRows] at hi ⊢
    by_cases hguard : 0 < roundHalfEven a
    · rw [if_pos hguard] at hi ⊢
      rcases i with _ | j
      · simpa using hguard
      · simp only [List.length_cons] at hi
        simp only [List.map_cons, List.getD_cons_succ]
        apply ih
        omega
    · rw [if_neg hguard] at hi
      simp at hi

/-- When the loop stops before exhausting its stage cap, it is because the
running balance rounds to zero or below. -/
theorem amortRows_early_stop (r : ℚ) (pf : ℕ) :
    ∀ fuel counter payment amount,
      (amortRows r pf fuel counter payment amount).length < fuel →
      roundHalfEven
        (((amortRows r pf fuel counter payment amount).map (·.amount)).getLastD amount) ≤ 0 := by
  intro fuel
  induction fuel with
  | zero => intro c p a h; omega
  | succ f ih =>
    intro c p a h
    rw [amortRows] at h ⊢
    by_cases hguard : 0 < roundHalfEven a
    · rw [if_pos hguard] at h ⊢
      simp only [List.length_cons] at h
      simp only [List.map_cons, List.getLastD_cons]
      apply ih
      omega
    · rw [if_neg hguard]
      simpa using le_of_not_lt hguard

/-- A positive starting balance and positive cap yield at least one row. -/
theorem amortRows_length_pos (r : ℚ) (pf fuel counter : ℕ) (payment amount : ℚ)
    (hf : 1 ≤ fuel) (ha : 0 < roundHalfEven amount) :
    1 ≤ (amortRows r pf fuel counter payment amount).length := by
  obtain ⟨f, rfl⟩ : ∃ f, fuel = f + 1 := ⟨fuel - 1, by omega⟩
  rw [amortRows, if_pos ha]
  simp

/-- The EAD column has one entry per executed loop iteration. -/
theorem amortization_eadCol_length (r : ℚ) (pf numPayments : ℕ) (stage : String)
    (bal : ℚ) :
    (amortization r pf numPayments stage bal).eadCol.length =
      (amortRows r pf (stageCap stage numPayments) 1
        (|round2 (pmtQ r numPayments bal)|) bal).length := by
  simp [amortization]

/-- Claim C4 (corrected): the projection horizon is capped by stage —
`min(12, num_payments)` for stage_1, `num_payments` for stage_2, and at most one
period otherwise (exactly one when the initial balance rounds above zero; a
stage_3 loan whose balance rounds to zero or below produces no period) — every
projected balance in the schedule rounds above zero, and a projection shorter
than its cap stopped because the running balance rounded to zero or below. -/
theorem amortization_horizon_caps (r : ℚ) (pf numPayments : ℕ) (stage : String)
    (bal : ℚ) :
    ((amortization r pf numPayments stage bal).eadCol.length ≤
      stageCap stage numPayments) ∧
    (stage = "stage_1" →
      (amortization r pf numPayments stage bal).eadCol.length ≤ min 12 numPayments) ∧
    (stage = "stage_2" →
      (amortization r pf numPayments stage bal).eadCol.length ≤ numPayments) ∧
    (stage ≠ "stage_1" → stage ≠ "stage_2" →
      (amortization r pf numPayments stage bal).eadCol.length ≤ 1 ∧
      (0 < roundHalfEven bal →
        (amortization r pf numPayments stage bal).eadCol.length = 1)) ∧
    (∀ i, i < (amortization r pf numPayments stage bal).eadCol.length →
      0 < roundHalfEven ((amortization r pf numPayments stage bal).eadCol.getD i 0)) ∧
    ((amortization r pf numPayments stage bal).eadCol.length <
        stageCap stage numPayments →
      roundHalfEven
        (((amortRows r pf (stageCap stage numPayments) 1
            (|round2 (pmtQ r numPayments bal)|) bal).map (·.amount)).getLastD bal) ≤ 0) := by
  have hlen := amortization_eadCol_length r pf numPayments stage bal
  refine ⟨?_, ?_, ?_, ?_, ?_, ?_⟩
  · rw [hlen]; exact amortRows_length_le r pf _ 1 _ bal
  · intro h1
    have hcap : stageCap stage numPayments = min 12 numPayments := by
      rw [stageCap, if_pos h1]
    rw [hlen, hcap]
    exact amortRows_length_le r pf _ 1 _ bal
  · intro h2
    have hcap : stageCap stage numPayments = numPayments := by
      rw [stageCap, if_neg (by simp [h2]), if_pos h2]
    rw [hlen, hcap]
    exact amortRows_length_le r pf _ 1 _ bal
  · intro h1 h2
    have hcap : stageCap stage numPayments = 1 := by
      rw [stageCap, if_neg h1, if_neg h2]
    constructor
    · rw [hlen, hcap]
      exact amortRows_length_le r pf _ 1 _ bal
    · intro hbal
      rw [hlen, hcap]
      have hle := amortRows_length_le r pf 1 1
        (|round2 (pmtQ r numPayments bal)|) bal
      have hge := amortRows_length_pos r pf 1 1
        (|round2 (pmtQ r numPayments bal)|) bal (le_refl 1) hbal
      omega
  · intro i hi
    rw [hlen] at hi
    have hdl : (amortization r pf numPayments stage bal).eadCol.getD i 0 =
        ((bal :: (amortRows r pf (stageCap stage numPayments) 1
          (|round2 (pmtQ r numPayments bal)|) bal).map (·.amount)).getD i 0) := by
      have hie : i < (amortization r pf numPayments stage bal).eadCol.length := by
        rw [hlen]; exact hi
      rw [List.getD_eq_getElem _ _ hie]
      have hlt : i < (bal :: (amortRows r pf (stageCap stage numPayments) 1
          (|round2 (pmtQ r numPayments bal)|) bal).map (·.amount)).length := by
        simp; omega
      rw [List.getD_eq_getElem _ _ hlt]
      simp only [amortization]
      rw [List.getElem_dropLast]
    rw [hdl]
    exact amortRows_balances_pos r pf _ 1 _ bal i hi
  · intro hstop
    rw [hlen] at hstop
    exact amortRows_early_stop r pf _ 1 _ bal hstop

/-- Counterexample for C4: a stage_3 loan whose outstanding balance (0.4) rounds
to zero produces an empty projection, not the "exactly one period" the claim
states. -/
theorem amortization_stage3_counterexample :
    (amortization 0 12 5 "stage_3" (2/5)).eadCol.length = 0 ∧ (0 : ℕ) ≠ 1 := by
  refine ⟨?_, by decide⟩
  norm_num [amortization, amortRows, stageCap, roundHalfEven, round2, pmtQ]

/-- Witness for C4: a stage_3 loan with positive balance projects exactly one
period. -/
theorem amortization_horizon_caps_witness :
    (amortization 0 12 5 "stage_3" 100).eadCol.length = 1 :=
  ((amortization_horizon_caps 0 12 5 "stage_3" 100).2.2.2.1 (by decide) (by decide)).2
    (by norm_num [roundHalfEven])

/-- Claim C2 (corrected): the level payment actually used by the `amortization`
projection is the annuity payment computed from the *current outstanding
balance* and the *remaining* number of payments; whenever the schedule has a
first projected payment month with no overpayment cap triggered, that recorded
payment equals `abs(round(pmt(rate, num_payments, outstanding_balance), 2))`. -/
theorem amortization_payment_from_outstanding (r : ℚ) (pf numPayments : ℕ)
    (stage : String) (bal : ℚ)
    (hlen : 2 ≤ (amortization r pf numPayments stage bal).payCol.length)
    (hcap : ¬ bal < |round2 (pmtQ r numPayments bal)|)
    (hpay : isPaymentMonth 1 pf = true) :
    (amortization r pf numPayments stage bal).payCol.getD 1 0 =
      |round2 (pmtQ r numPayments bal)| := by
  have hrows : 2 ≤ (amortRows r pf (stageCap stage numPayments) 1
      (|round2 (pmtQ r numPayments bal)|) bal).length := by
    have : (amortization r pf numPayments stage bal).payCol.length =
        (amortRows r pf (stageCap stage numPayments) 1
          (|round2 (pmtQ r numPayments bal)|) bal).length := by
      simp [amortization]
    omega
  obtain ⟨f, hf⟩ : ∃ f, stageCap stage numPayments = f + 1 := by
    have := amortRows_length_le r pf (stageCap stage numPayments) 1
      (|round2 (pmtQ r numPayments bal)|) bal
    exact ⟨stageCap stage numPayments - 1, by omega⟩
  rw [hf] at hrows
  by_cases hguard : 0 < roundHalfEven bal
  · have hD : (amortization r pf numPayments stage bal).payCol.getD 1 0 =
        (((0 : ℚ) :: (amortRows r pf (stageCap stage numPayments) 1
          (|round2 (pmtQ r numPayments bal)|) bal).map (·.pay)).getD 1 0) := by
      have h1 : 1 < (amortization r pf numPayments stage bal).payCol.length := by
        omega
      rw [List.getD_eq_getElem _ _ h1]
      have h2 : 1 < ((0 : ℚ) :: (amortRows r pf (stageCap stage numPayments) 1
          (|round2 (pmtQ r numPayments bal)|) bal).map (·.pay)).length := by
        simp
        rw [hf]
        omega
      rw [List.getD_eq_getElem _ _ h2]
      simp only [amortization]
      rw [List.getElem_dropLast]
    rw [hD, hf]
    rw [amortRows, if_pos hguard, if_neg hcap]
    simp [hpay]
  · exfalso
    have : (amortRows r pf (f + 1) 1 (|round2 (pmtQ r numPayments bal)|) bal) = [] := by
      rw [amortRows, if_neg hguard]
    rw [this] at hrows
    simp at hrows

/-- Counterexample for C2: a loan disbursed at 1200 over 4 total payments but
with 500 outstanding and 2 remaining payments at valuation (rate 0).  The
projection's recorded payment is 250 — the annuity payment on the outstanding
balance over the remaining term — while the annuity payment on the original
disbursed amount over the total term (`pthly_payment`, computed in `__init__`
but unused by the projection) is 300. -/
theorem amortization_payment_claim_counterexample :
    (amortization 0 12 2 "stage_2" 500).payCol.getD 1 0 = 250 ∧
    pthly_payment 0 4 1200 = 300 ∧
    (250 : ℚ) ≠ 300 := by
  refine ⟨?_, ?_, by norm_num⟩
  · norm_num [amortization, amortRows, stageCap, roundHalfEven, round2, pmtQ,
      isPaymentMonth, payEvery]
  · norm_num [pthly_payment, round2, pmtQ, roundHalfEven]

/-- Witness for C2: at the counterexample loan the first projected payment
equals the remaining-term annuity payment on the outstanding balance. -/
theorem amortization_payment_from_outstanding_witness :
    (amortization 0 12 2 "stage_2" 500).payCol.getD 1 0 =
      |round2 (pmtQ 0 2 500)| :=
  amortization_payment_from_outstanding 0 12 2 "stage_2" 500
    (by norm_num [amortization, amortRows, stageCap, roundHalfEven, round2, pmtQ,
      isPaymentMonth, payEvery])
    (by norm_num [round2, pmtQ, roundHalfEven])
    (by norm_num [isPaymentMonth, payEvery])

/-- Claim C3 (corrected): for a non-stage_3 loan, period `t` of the LGD schedule
holds `clip(((ead[t] − total_dcv) / (ead[t] + 1e-5)) × (1 − cure[t]) ×
(1 − recovery[t] if present else 1), 0, 1)` — the clip to [0, 1] is applied to
the final product, not to the collateral-coverage ratio before the cure and
recovery factors. -/
theorem lgd_schedule_pointwise (ead : List ℚ) (dcv : ℚ) (cure : List ℚ)
    (recovery : Option (List ℚ)) (t : ℕ) (ht : t < ead.length)
    (hcure : ead.length ≤ cure.length)
    (hrec : ∀ rr ∈ recovery, ead.length ≤ rr.length) :
    (lgd_schedule ead dcv cure recovery).getD t 0 =
      clipQ 0 1 ((ead.getD t 0 - dcv) / (ead.getD t 0 + 1/100000) *
        (1 - cure.getD t 0) *
        (match recovery with
         | none => 1
         | some rr => 1 - rr.getD t 0)) := by
  have hbase : (ead.map (fun e => (e - dcv) / (e + 1/100000))).length = ead.length := by
    simp
  have hcuret : (cure.take ead.length).length = ead.length := by
    simp [hcure]
  cases recovery with
  | none =>
    have hwc : (List.zipWith (fun b c => b * (1 - c))
        (ead.map (fun e => (e - dcv) / (e + 1/100000)))
        (cure.take ead.length)).length = ead.length := by
      simp [hcure]
    have ht' : t < (lgd_schedule ead dcv cure none).length := by
      simp only [lgd_schedule, List.length_map, hwc]
      exact ht
    rw [List.getD_eq_getElem _ _ ht']
    simp only [lgd_schedule, List.getElem_map, List.getElem_zipWith,
      List.getElem_take]
    rw [List.getD_eq_getElem _ _ ht, List.getD_eq_getElem _ _ (by omega : t < cure.length)]
    rw [mul_one]
  | some rr =>
    have hrr : ead.length ≤ rr.length := hrec rr rfl
    have hwc : (List.zipWith (fun b c => b * (1 - c))
        (ead.map (fun e => (e - dcv) / (e + 1/100000)))
        (cure.take ead.length)).length = ead.length := by
      simp [hcure]
    have hwr : (List.zipWith (fun b v => b * (1 - v))
        (List.zipWith (fun b c => b * (1 - c))
          (ead.map (fun e => (e - dcv) / (e + 1/100000)))
          (cure.take ead.length))
        (rr.take ead.length)).length = ead.length := by
      simp [hcure, hrr]
    have ht' : t < (lgd_schedule ead dcv cure (some rr)).length := by
      simp only [lgd_schedule, List.length_map, hwr]
      exact ht
    rw [List.getD_eq_getElem _ _ ht']
    simp only [lgd_schedule, List.getElem_map, List.getElem_zipWith,
      List.getElem_take]
    rw [List.getD_eq_getElem _ _ ht, List.getD_eq_getElem _ _ (by omega : t < cure.length),
      List.getD_eq_getElem _ _ (by omega : t < rr.length)]

/-- Counterexample for C3: with `ead = [1]`, no collateral (`total_dcv = 0`), a
cure rate of −1 (negative marginal cure rates arise from non-monotone cumulative
curves) and no recovery curve, the schedule holds `clip(ratio × 2) = 1`, while
the claim's formula `clip(ratio) × 2` gives `200000/100001 ≈ 1.99998`. -/
theorem lgd_schedule_clip_order_counterexample :
    lgd_schedule [1] 0 [-1] none = [1] ∧
    clipQ 0 1 ((1 - 0) / (1 + 1/100000)) * (1 - (-1)) = 200000/100001 ∧
    (1 : ℚ) ≠ 200000/100001 := by
  refine ⟨?_, ?_, by norm_num⟩
  · norm_num [lgd_schedule, clipQ]
  · norm_num [clipQ]

/-- Witness for C3: a fully collateral-short loan with a 10% cure rate. -/
theorem lgd_schedule_pointwise_witness :
    (lgd_schedule [2] 1 [1/10] none).getD 0 0 =
      clipQ 0 1 (((2 : ℚ) - 1) / (2 + 1/100000) * (1 - 1/10) * 1) := by
  have h := lgd_schedule_pointwise [2] 1 [1/10] none 0 (by decide) (by decide)
    (by intro rr hrr; cases hrr)
  simpa using h

/-- Length of a four-way zip: the minimum of the four lengths. -/
theorem zipWith4_length {α β γ δ ε : Type} (f : α → β → γ → δ → ε) :
    ∀ (as : List α) (bs : List β) (cs : List γ) (ds : List δ),
      (zipWith4 f as bs cs ds).length =
        min (min (min as.length bs.length) cs.length) ds.length := by
  intro as
  induction as with
  | nil => intro bs cs ds; simp [zipWith4]
  | cons a as ih =>
    intro bs cs ds
    cases bs with
    | nil => simp [zipWith4]
    | cons b bs =>
      cases cs with
      | nil => simp [zipWith4]
      | cons c cs =>
        cases ds with
        | nil => simp [zipWith4]
        | cons d ds =>
          simp only [zipWith4, List.length_cons, ih]
          omega

/-- Pointwise description of a four-way zip. -/
theorem zipWith4_getD {α β γ δ ε : Type} (f : α → β → γ → δ → ε) :
    ∀ (as : List α) (bs : List β) (cs : List γ) (ds : List δ) (i : ℕ)
      (d1 : α) (d2 : β) (d3 : γ) (d4 : δ) (d5 : ε),
      i < as.length → i < bs.length → i < cs.length → i < ds.length →
      (zipWith4 f as bs cs ds).getD i d5 =
        f (as.getD i d1) (bs.getD i d2) (cs.getD i d3) (ds.getD i d4) := by
  intro as
  induction as with
  | nil => intro bs cs ds i d1 d2 d3 d4 d5 h1; simp at h1
  | cons a as ih =>
    intro bs cs ds i d1 d2 d3 d4 d5 h1 h2 h3 h4
    cases bs with
    | nil => simp at h2
    | cons b bs =>
      cases cs with
      | nil => simp at h3
      | cons c cs =>
        cases ds with
        | nil => simp at h4
        | cons d ds =>
          cases i with
          | zero => simp [zipWith4]
          | succ j =>
            simp only [zipWith4, List.getD_cons_succ]
            exact ih bs cs ds j d1 d2 d3 d4 d5 (by simpa using h1)
              (by simpa using h2) (by simpa using h3) (by simpa using h4)

/-- The PD curve selected by `calculate_single_loan_ecl` never exceeds `num`
entries. -/
theorem selectPd_length_le (stage loanType : String) (s1 s2 : PdDf) (num : ℕ)
    (curve : List ℝ) (h : selectPd stage loanType s1 s2 num = .ok curve) :
    curve.length ≤ num := by
  unfold selectPd at h
  split_ifs at h
  · cases hl : List.lookup loanType s1 with
    | none => rw [hl] at h; exact Except.noConfusion h
    | some col =>
      rw [hl] at h
      cases h
      simp
  · cases hl : List.lookup loanType s2 with
    | none => rw [hl] at h; exact Except.noConfusion h
    | some col =>
      rw [hl] at h
      cases h
      simp
  · cases h
    simp

/-- Claim C1 (corrected): `calculate_single_loan_ecl` computes over
`num = min(len(ead), stage2_pds.shape[0], len(lgd))` periods — the row count of
the stage-2 marginal DataFrame caps `num` for *every* stage, not the length of
the loan's own stage's curve — and, provided the selected own-stage curve
reaches `num` entries, period `t` (1-based) of the result holds
`ecl[t] = pd[t] × ead[t] × lgd[t] × (1+eir)^(−t/12)` with the PD taken from the
own-stage curve. -/
theorem calculate_single_loan_ecl_num_and_formula (account stage loanType : String)
    (eir : ℝ) (eadCells lgdCells : List Cell) (s1 s2 : PdDf)
    (ead lgd curve : List ℝ)
    (head : toNumeric eadCells = .ok ead)
    (hlgd : toNumeric lgdCells = .ok lgd)
    (hsel : selectPd stage loanType s1 s2
      (min (min ead.length (dfRows s2)) lgd.length) = .ok curve)
    (hcurve : min (min ead.length (dfRows s2)) lgd.length ≤ curve.length) :
    ∃ rows, calculate_single_loan_ecl account stage loanType eir eadCells lgdCells s1 s2
        = .ok (some rows) ∧
      rows.length = min (min ead.length (dfRows s2)) lgd.length ∧
      ∀ t, t < rows.length →
        (rows.getD t default).ecl =
          curve.getD t 0 * ead.getD t 0 * lgd.getD t 0 *
            (1 + eir) ^ (-(((t : ℝ) + 1)) / 12) ∧
        (rows.getD t default).pd = curve.getD t 0 ∧
        (rows.getD t default).ead = ead.getD t 0 ∧
        (rows.getD t default).lgd = lgd.getD t 0 := by
  set num := min (min ead.length (dfRows s2)) lgd.length with hnum
  have hcl : curve.length = num := le_antisymm
    (selectPd_length_le stage loanType s1 s2 num curve hsel) hcurve
  have headT : (ead.take num).length = num := by
    simp only [List.length_take]
    omega
  have hlgdT : (lgd.take num).length = num := by
    simp only [List.length_take]
    omega
  have hdisc : ((List.range num).map (fun i => discountFactor eir (i + 1))).length
      = num := by simp
  refine ⟨zipWith4
      (fun p e l d => { account := account, stage := stage, loanType := loanType,
                        ecl := p * e * l * d, ead := e, pd := p, lgd := l : EclRow })
      curve (ead.take num) (lgd.take num)
      ((List.range num).map (fun i => discountFactor eir (i + 1))), ?_, ?_, ?_⟩
  · unfold calculate_single_loan_ecl
    simp only [head, hlgd]
    rw [← hnum]
    simp only [hsel]
  · rw [zipWith4_length, hcl, headT, hlgdT, hdisc]
    simp
  · intro t htl
    rw [zipWith4_length, hcl, headT, hlgdT, hdisc] at htl
    simp only [min_self] at htl
    have h1 : t < curve.length := by omega
    have h2 : t < (ead.take num).length := by omega
    have h3 : t < (lgd.take num).length := by omega
    have h4 : t < ((List.range num).map (fun i => discountFactor eir (i + 1))).length := by
      omega
    rw [zipWith4_getD _ _ _ _ _ t 0 0 0 0 default h1 h2 h3 h4]
    have he : (ead.take num).getD t 0 = ead.getD t 0 := by
      rw [List.getD_eq_getElem _ _ h2, List.getElem_take,
        List.getD_eq_getElem _ _ (by simp at h2; omega : t < ead.length)]
    have hl : (lgd.take num).getD t 0 = lgd.getD t 0 := by
      rw [List.getD_eq_getElem _ _ h3, List.getElem_take,
        List.getD_eq_getElem _ _ (by simp at h3; omega : t < lgd.length)]
    have hd : ((List.range num).map (fun i => discountFactor eir (i + 1))).getD t 0 =
        (1 + eir) ^ (-(((t : ℝ) + 1)) / 12) := by
      rw [List.getD_eq_getElem _ _ h4]
      simp only [List.getElem_map, List.getElem_range]
      unfold discountFactor
      norm_num
    refine ⟨?_, ?_, ?_, ?_⟩
    · simp only [he, hl, hd]
    · rfl
    · exact he
    · exact hl

/-- Counterexample for C1: a stage_1 loan whose own stage-1 curve has 3 entries
while the stage-2 DataFrame has only 2 rows; with 3 EAD and 3 LGD entries the
claim's `num = min(3, 3, 3) = 3`, but the code computes over
`min(3, stage2_rows, 3) = 2` periods. -/
theorem calculate_single_loan_ecl_num_counterexample :
    (calculate_single_loan_ecl "A1" "stage_1" "PL" 0
        [Cell.num 100, Cell.num 90, Cell.num 80]
        [Cell.num (1/2), Cell.num (1/2), Cell.num (1/2)]
        [("PL", [1/10, 1/10, 1/10])] [("PL", [1/5, 1/5])]).map
        (fun o => o.map List.length)
      = Except.ok (some 2) ∧
    claimNum 3 3 3 = 3 ∧
    (2 : ℕ) ≠ 3 := by
  refine ⟨?_, by decide, by decide⟩
  rfl

/-- Witness for C1: a stage_2 loan over two periods with matching curve lengths. -/
theorem calculate_single_loan_ecl_num_and_formula_witness :
    ∃ rows, calculate_single_loan_ecl "A2" "stage_2" "PL" 0
        [Cell.num 100, Cell.num 90] [Cell.num (1/2), Cell.num (1/2)]
        [("PL", [1/10, 1/10])] [("PL", [1/5, 1/5])]
        = .ok (some rows) ∧
      rows.length = min (min 2 (dfRows [("PL", [(1:ℝ)/5, 1/5])])) 2 ∧
      ∀ t, t < rows.length →
        (rows.getD t default).ecl =
          [(1:ℝ)/5, 1/5].getD t 0 * [(100:ℝ), 90].getD t 0 *
            [(1:ℝ)/2, 1/2].getD t 0 * (1 + 0) ^ (-(((t : ℝ) + 1)) / 12) ∧
        (rows.getD t default).pd = [(1:ℝ)/5, 1/5].getD t 0 ∧
        (rows.getD t default).ead = [(100:ℝ), 90].getD t 0 ∧
        (rows.getD t default).lgd = [(1:ℝ)/2, 1/2].getD t 0 :=
  calculate_single_loan_ecl_num_and_formula "A2" "stage_2" "PL" 0 _ _ _ _
    [100, 90] [1/2, 1/2] [1/5, 1/5] rfl rfl rfl (by norm_num [dfRows])

/-- `calculate_single_loan_ecl` never takes the caught-exception path on these
inputs: the `try/except` guards only the numeric product, which cannot raise
once `pd.to_numeric` has succeeded, so a normal return always carries a frame. -/
theorem calcLoan_ne_ok_none (s1 s2 : PdDf) (p : LoanInput) :
    calcLoan s1 s2 p ≠ Except.ok none := by
  unfold calcLoan calculate_single_loan_ecl
  split
  · simp
  · split
    · simp
    · dsimp only
      split
      · simp
      · simp

/-- The mapped per-loan calls succeed as a whole exactly when every call
succeeds (the first uncaught exception aborts the whole map). -/
theorem runLoans_ok_iff (s1 s2 : PdDf) :
    ∀ l : List LoanInput,
      succeeds (runLoans s1 s2 l) ↔ ∀ p ∈ l, succeeds (calcLoan s1 s2 p) := by
  intro l
  induction l with
  | nil => simp [runLoans, succeeds]
  | cons p rest ih =>
    rw [runLoans]
    cases h : calcLoan s1 s2 p with
    | error e =>
      simp only [List.forall_mem_cons]
      constructor
      · rintro ⟨a, ha⟩; exact Except.noConfusion ha
      · rintro ⟨⟨a, ha⟩, _⟩
        rw [h] at ha
        exact Except.noConfusion ha
    | ok r =>
      cases h2 : runLoans s1 s2 rest with
      | error e =>
        simp only [List.forall_mem_cons]
        constructor
        · rintro ⟨a, ha⟩; exact Except.noConfusion ha
        · rintro ⟨_, hrest⟩
          have := ih.mpr hrest
          rw [h2] at this
          rcases this with ⟨a, ha⟩
          exact Except.noConfusion ha
      | ok rs =>
        simp only [List.forall_mem_cons]
        constructor
        · intro _
          exact ⟨⟨r, h⟩, ih.mp (by rw [h2]; exact ⟨rs, rfl⟩)⟩
        · intro _
          exact ⟨_, rfl⟩

/-- When the map over loans returns, it returns one (non-`None`) frame per loan. -/
theorem runLoans_ok_shape (s1 s2 : PdDf) :
    ∀ (l : List LoanInput) (rs : List (Option (List EclRow))),
      runLoans s1 s2 l = .ok rs → rs.length = l.length ∧ ∀ r ∈ rs, r ≠ none := by
  intro l
  induction l with
  | nil =>
    intro rs h
    rw [runLoans] at h
    cases h
    simp
  | cons p rest ih =>
    intro rs h
    rw [runLoans] at h
    cases hc : calcLoan s1 s2 p with
    | error e => rw [hc] at h; exact Except.noConfusion h
    | ok r =>
      rw [hc] at h
      cases h2 : runLoans s1 s2 rest with
      | error e => rw [h2] at h; exact Except.noConfusion h
      | ok rs' =>
        rw [h2] at h
        cases h
        obtain ⟨hlen, hnone⟩ := ih rs' h2
        refine ⟨by simp [hlen], ?_⟩
        intro x hx
        rcases List.mem_cons.mp hx with rfl | hx'
        · intro hcontra
          rw [hcontra] at hc
          exact calcLoan_ne_ok_none s1 s2 p hc
        · exact hnone x hx'

/-- A list of options with no `none` loses nothing under `filterMap id`. -/
theorem filterMap_id_length {α : Type} :
    ∀ rs : List (Option α), (∀ r ∈ rs, r ≠ none) →
      (rs.filterMap id).length = rs.length := by
  intro rs
  induction rs with
  | nil => intro _; simp
  | cons r rest ih =>
    intro h
    cases r with
    | none => exact absurd rfl (h none (List.mem_cons_self _ _))
    | some x =>
      have hx : List.filterMap id (some x :: rest) = x :: List.filterMap id rest := by
        simp
      rw [hx, List.length_cons, ih (fun q hq => h q (List.mem_cons_of_mem _ hq)),
        List.length_cons]

/-- Claim C8 (corrected): only exceptions raised by the discounted ECL product
line are caught per loan; failures earlier in the per-loan computation (a
non-numeric EAD/LGD cell in `pd.to_numeric`, a missing PD column for the loan's
type) are *not* caught — the first such exception aborts the whole batch and no
loan's results are produced.  The batch returns normally exactly when it is
nonempty and every loan's computation returns normally. -/
theorem ECL_Calc_succeeds_iff (accounts stages loanTypes : List String)
    (eirs : List ℝ) (eads lgds : List (List Cell)) (s1 s2 : PdDf) :
    succeeds (ECL_Calc accounts stages loanTypes eirs eads lgds s1 s2) ↔
      (zipLoans accounts stages loanTypes eirs eads lgds ≠ [] ∧
       ∀ p ∈ zipLoans accounts stages loanTypes eirs eads lgds,
         succeeds (calcLoan s1 s2 p)) := by
  simp only [ECL_Calc]
  cases h : runLoans s1 s2 (zipLoans accounts stages loanTypes eirs eads lgds) with
  | error e =>
    dsimp only
    have hall := runLoans_ok_iff s1 s2 (zipLoans accounts stages loanTypes eirs eads lgds)
    rw [h] at hall
    constructor
    · rintro ⟨a, ha⟩; exact Except.noConfusion ha
    · rintro ⟨_, hforall⟩
      rcases hall.mpr hforall with ⟨a, ha⟩
      exact Except.noConfusion ha
  | ok results =>
    dsimp only
    obtain ⟨hlen, hnone⟩ := runLoans_ok_shape s1 s2 _ results h
    have hflen := filterMap_id_length results hnone
    by_cases hemp : (results.filterMap id).isEmpty
    · rw [if_pos hemp]
      have hzero : (zipLoans accounts stages loanTypes eirs eads lgds).length = 0 := by
        rw [List.isEmpty_iff_length_eq_zero] at hemp
        omega
      constructor
      · rintro ⟨a, ha⟩; exact Except.noConfusion ha
      · rintro ⟨hne, _⟩
        exact (hne (List.length_eq_zero.mp hzero)).elim
    · rw [if_neg hemp]
      have hne : zipLoans accounts stages loanTypes eirs eads lgds ≠ [] := by
        intro hcontra
        rw [hcontra] at hlen
        simp only [List.length_nil] at hlen
        rw [List.isEmpty_iff_length_eq_zero] at hemp
        omega
      constructor
      · intro _
        refine ⟨hne, ?_⟩
        exact (runLoans_ok_iff s1 s2 _).mp (by rw [h]; exact ⟨results, rfl⟩)
      · intro _
        exact ⟨_, rfl⟩

/-- Counterexample for C8: a two-loan batch in which the first loan's type "X"
has no column in the stage-1 marginal PD DataFrame.  The `KeyError` is not
caught (the `try` wraps only the product line), so `ECL_Calc` aborts: the second
loan's results are *not* produced, contradicting the claim that any per-loan
exception leaves the other loans' results intact. -/
theorem ECL_Calc_uncaught_counterexample :
    ECL_Calc ["A1", "A2"] ["stage_1", "stage_3"] ["X", "PL"] [0, 0]
        [[Cell.num 100], [Cell.num 50]] [[Cell.num (1/2)], [Cell.num (1/2)]]
        [("PL", [1/10])] [("PL", [1/5])]
      = Except.error "KeyError: X" := by
  rfl

/-- Witness for C8: a singleton stage_3 batch returns normally. -/
theorem ECL_Calc_succeeds_iff_witness :
    succeeds (ECL_Calc ["A1"] ["stage_3"] ["PL"] [0] [[Cell.num 100]]
      [[Cell.num (1/2)]] [("PL", [1/10])] [("PL", [1/10])]) :=
  (ECL_Calc_succeeds_iff ["A1"] ["stage_3"] ["PL"] [0] [[Cell.num 100]]
      [[Cell.num (1/2)]] [("PL", [1/10])] [("PL", [1/10])]).mpr
    ⟨by simp [zipLoans], by
      intro p hp
      simp only [zipLoans, List.mem_singleton] at hp
      subst hp
      exact ⟨_, rfl⟩⟩

end IFRS9
